import Mathlib

/-!
Verification development for the view_assist natural-language time/interval
decoder.  The definitions below are a shallow embedding of
`custom_components/view_assist/core/translator/normaliser.py`,
`custom_components/view_assist/core/translator/wordstonumbers.py` and the
resolver `Timers.get_expiry_from_timerinfo` of
`custom_components/view_assist/core/timers.py`.

Modelling conventions:
* Python `str` values are modelled as `List Char` internally (`String` at the
  interface), lowered to ASCII exactly where the source lowers them.
* Python integers are `Int` (arbitrary precision, may go negative, e.g. via
  `timer.hours -= 1`).  Python `float` values that appear (fractional parts of
  decimal strings, and the fraction-word multipliers 0.5/0.25/0.75) are
  modelled as exact non-negative rationals `num/den` given as `Nat` pairs;
  every value a claim evaluates them at (halves and quarters scaled by 60/24)
  is exactly representable in IEEE double, so the rational model agrees with
  CPython there.  Python `int(x)` on those non-negative values is truncation,
  i.e. `Nat` division.
* An uncaught Python exception (`ValueError` from `int()` / `float()` /
  `list.index`) is modelled as `Except.error ()`.
* Timestamps are modelled as `Int` seconds of local time in a fixed-offset
  timezone, with second 0 falling on a Monday 00:00, so
  `datetime.replace(hour=0, minute=0, second=0, microsecond=0)` is
  "subtract `t % 86400`" and `datetime.weekday()` is `(t / 86400) % 7`.
  The two `datetime.now()` calls inside `get_expiry_from_timerinfo` are
  modelled as the same instant `now` (they are microseconds apart).
* The language-pack JSON files (`translations/timers/*.json`) are data files
  not present in the source tree; packs are therefore parameters of the
  embedded functions, with `none` standing for a failed load
  (`load_language_pack` returning `None`, which is also how a falsy/empty
  pack behaves in `if self.normalisations and self.lang:`).
-/

set_option maxRecDepth 100000
set_option maxHeartbeats 2000000

namespace ViewAssist

/-! ## Python string primitives (over `List Char`) -/

/-- Python `str.lower()` restricted to ASCII, which is all the source uses. -/
def pyLower (s : List Char) : List Char := s.map Char.toLower

/-- Python whitespace test used by `str.split()` / `str.strip()` / `\s`. -/
def isPySpace (c : Char) : Bool :=
  c = ' ' ∨ c = '\t' ∨ c = '\n' ∨ c = '\r' ∨ c = '\x0b' ∨ c = '\x0c'

/-- Word character for the regex `\b` / `\W` classes: `[a-zA-Z0-9_]`. -/
def isWordChar (c : Char) : Bool :=
  ('a' ≤ c ∧ c ≤ 'z') ∨ ('A' ≤ c ∧ c ≤ 'Z') ∨ ('0' ≤ c ∧ c ≤ '9') ∨ c = '_'

def isDigitChar (c : Char) : Bool := '0' ≤ c ∧ c ≤ '9'

/-- Python `str.split()` with no argument: split on whitespace runs,
dropping empty pieces. -/
def splitWs (s : List Char) : List (List Char) :=
  let rec go (s : List Char) (cur : List Char) (acc : List (List Char)) :
      List (List Char) :=
    match s with
    | [] => if cur = [] then acc.reverse else (cur.reverse :: acc).reverse
    | c :: rest =>
      if isPySpace c then
        if cur = [] then go rest [] acc else go rest [] (cur.reverse :: acc)
      else go rest (c :: cur) acc
  go s [] []

/-- Python `" ".join(parts)`. -/
def joinSpace (parts : List (List Char)) : List Char :=
  match parts with
  | [] => []
  | p :: rest => p ++ (rest.flatMap fun q => ' ' :: q)

/-- Python `str.strip()`. -/
def pyStrip (s : List Char) : List Char :=
  (s.dropWhile isPySpace).reverse.dropWhile isPySpace |>.reverse

/-- `needle.isPrefixOf hay` for char lists. -/
def isPre (needle hay : List Char) : Bool :=
  match needle, hay with
  | [], _ => true
  | _, [] => false
  | a :: as, b :: bs => a = b && isPre as bs

/-- Python `needle in hay` (substring containment). -/
def containsSub (needle hay : List Char) : Bool :=
  match hay with
  | [] => needle = []
  | _ :: rest => isPre needle hay || containsSub needle rest

/-- Python `str.replace(old, new)`: every non-overlapping occurrence,
left to right, without rescanning replaced text.  `old` is non-empty at
every call site in the source. -/
def replaceAllFuel (old new : List Char) : Nat → List Char → List Char
  | 0, s => s
  | fuel + 1, s =>
    match s with
    | [] => []
    | c :: rest =>
      if old ≠ [] ∧ isPre old s = true then
        new ++ replaceAllFuel old new fuel (s.drop old.length)
      else
        c :: replaceAllFuel old new fuel rest

def replaceAllL (old new s : List Char) : List Char :=
  replaceAllFuel old new (s.length + 1) s

/-- Python `value.split(".")`: split at every dot, keeping empty pieces. -/
def splitDot (s : List Char) : List (List Char) :=
  let rec go (s : List Char) (cur : List Char) (acc : List (List Char)) :
      List (List Char) :=
    match s with
    | [] => (cur.reverse :: acc).reverse
    | c :: rest =>
      if c = '.' then go rest [] (cur.reverse :: acc)
      else go rest (c :: cur) acc
  go s [] []

/-! ## Python numeric parsing -/

def digitVal (c : Char) : Nat := c.toNat - '0'.toNat

def digitsVal (s : List Char) : Nat :=
  s.foldl (fun acc c => acc * 10 + digitVal c) 0

/-- Python `int(str)`: optional surrounding whitespace, optional sign, one or
more digits; anything else raises `ValueError`.  (Underscore grouping, which
no captured string can contain, is not modelled.) -/
def pyInt (s : List Char) : Except Unit Int :=
  let t := pyStrip s
  let (sign, digits) : Int × List Char :=
    match t with
    | '+' :: u => (1, u)
    | '-' :: u => (-1, u)
    | u => (1, u)
  if digits ≠ [] ∧ digits.all isDigitChar then
    Except.ok (sign * (digitsVal digits : Int))
  else Except.error ()

/-- `float("0." + frac)` as an exact rational `num/den`; raises unless `frac`
is a (possibly empty) digit string. -/
def pyFrac (frac : List Char) : Except Unit (Nat × Nat) :=
  if frac.all isDigitChar then Except.ok (digitsVal frac, 10 ^ frac.length)
  else Except.error ()

/-- Python `int(float(v))` for the non-negative decimal strings the seconds
field can carry: truncation toward zero. -/
def pyIntOfFloat (s : List Char) : Except Unit Int :=
  let t := pyStrip s
  let (sign, body) : Int × List Char :=
    match t with
    | '+' :: u => (1, u)
    | '-' :: u => (-1, u)
    | u => (1, u)
  match splitDot body with
  | [whole] =>
    if whole ≠ [] ∧ whole.all isDigitChar then
      Except.ok (sign * (digitsVal whole : Nat))
    else Except.error ()
  | [whole, frac] =>
    if (whole ≠ [] ∨ frac ≠ []) ∧ whole.all isDigitChar ∧ frac.all isDigitChar
    then Except.ok (sign * (digitsVal whole : Nat))
    else Except.error ()
  | _ => Except.error ()

/-- Truthiness of a Python float modelled as `num/den`: non-zero numerator. -/
def fracTruthy (f : Nat × Nat) : Bool := f.1 ≠ 0

/-- `int(part * k)` for a non-negative rational `part = num/den`. -/
def fracMulTrunc (f : Nat × Nat) (k : Nat) : Int := ((f.1 * k) / f.2 : Nat)

/-! ## TimerInfo (normaliser.py `TimerInfo` dataclass) -/

structure TimerInfo where
  days : Int := 0
  hours : Int := 0
  minutes : Int := 0
  seconds : Int := 0
  dayofweek : String := ""
  meridiem : String := ""
  timeofday : String := ""
  special_hour : String := ""
  is_time : Bool := false
  is_interval : Bool := false
  /-- The dataclass default is `""`, but `build_timer_info` assigns
  `sentence if sentence else None`; `none` models Python `None`/falsy. -/
  sentence : Option String := none
  pattern : Option String := none
deriving DecidableEq, Repr

/-! A regex `groupdict()` is an association list over the declared group
names; a declared group that did not participate maps to `none` (Python
`None`), exactly like `re.Match.groupdict`. -/

abbrev GroupDict := List (String × Option String)

/-- Python `d.get(k)` (default `None`). -/
def dictGet (d : GroupDict) (k : String) : Option String :=
  match d.find? (fun kv => kv.1 = k) with
  | some kv => kv.2
  | none => none

/-- Python `d.get(k, dflt)`: the stored value (which may be `None`) when the
key is present, else the default. -/
def dictGetD (d : GroupDict) (k : String) (dflt : Option String) :
    Option String :=
  match d.find? (fun kv => kv.1 = k) with
  | some kv => kv.2
  | none => dflt

/-- Python truthiness of an optional string. -/
def strTruthy (v : Option String) : Bool :=
  match v with
  | some s => s ≠ ""
  | none => false

/-! ## Normaliser.handle_floats and Normaliser.build_timer_info -/

/-- `Normaliser.handle_floats`: `None` gives `(0, 0)`; a string containing a
dot is split into whole part (via `int`) and fractional part (via
`float("0." + parts[1])`); otherwise `int(value)` with zero fraction. -/
def handle_floats (value : Option String) : Except Unit (Int × (Nat × Nat)) :=
  match value with
  | none => Except.ok (0, (0, 1))
  | some v =>
    let cs := v.data
    if containsSub ['.'] cs then
      match splitDot cs with
      | whole :: frac :: _ => do
        let w ← pyInt whole
        let f ← pyFrac frac
        Except.ok (w, f)
      | _ => Except.error ()
    else do
      let w ← pyInt cs
      Except.ok (w, (0, 1))

/-- The "Fixed items" block of `build_timer_info` plus the
`sentence`/`pattern` assignments. -/
def build_fixed (d : GroupDict) (sentence pattern : Option String) :
    TimerInfo :=
  { sentence := if strTruthy sentence then sentence else none
    pattern := if strTruthy pattern then pattern else none
    dayofweek := if strTruthy (dictGet d "day") then (dictGet d "day").getD "" else ""
    meridiem := if strTruthy (dictGet d "meridiem") then (dictGet d "meridiem").getD "" else ""
    timeofday := if strTruthy (dictGet d "time_of_day") then (dictGet d "time_of_day").getD "" else ""
    special_hour := if strTruthy (dictGet d "special_hour") then (dictGet d "special_hour").getD "" else "" }

/-- The numeric block of `build_timer_info`: decimal fields with carry-down
of fractional parts (day to hours ×24, hour to minutes ×60, minute to
seconds ×60). -/
def build_numeric (d : GroupDict) (t : TimerInfo) : Except Unit TimerInfo := do
  let (days, part_day) ← handle_floats (dictGetD d "days" (some "0"))
  let (hours, part_hour) ← handle_floats (dictGetD d "hours" (some "0"))
  let hours := if fracTruthy part_day then hours + fracMulTrunc part_day 24 else hours
  let (minutes, part_min) ← handle_floats (dictGetD d "minutes" (some "0"))
  let minutes := if fracTruthy part_hour then minutes + fracMulTrunc part_hour 60 else minutes
  let seconds ← if strTruthy (dictGet d "seconds") then
      pyIntOfFloat ((dictGet d "seconds").getD "").data
    else pure 0
  let seconds := if fracTruthy part_min then seconds + fracMulTrunc part_min 60 else seconds
  Except.ok { t with days, hours, minutes, seconds }

/-- Fraction-word multiplier as an exact rational (`1` for an unrecognised
word, like the source's default). -/
def fraction_multiplier (f : String) : Nat × Nat :=
  if f = "half" then (1, 2)
  else if f = "quarter" then (1, 4)
  else if f = "threequarter" then (3, 4)
  else (1, 1)

/-- The fraction block of `build_timer_info`.  Note the source's first test
(`if timer.minutes > 0`) is an independent `if`, while the remaining three
form an `if/elif/elif` chain. -/
def apply_fraction (d : GroupDict) (t : TimerInfo) : TimerInfo :=
  if strTruthy (dictGet d "fractions") then
    let m := fraction_multiplier ((dictGet d "fractions").getD "")
    let t := if t.minutes > 0 then { t with seconds := t.seconds + fracMulTrunc m 60 } else t
    if t.hours > 0 then { t with minutes := t.minutes + fracMulTrunc m 60 }
    else if t.days > 0 then { t with hours := t.hours + fracMulTrunc m 24 }
    else if t.minutes = 0 then { t with minutes := t.minutes + fracMulTrunc m 60 }
    else t
  else t

/-- The operator block of `build_timer_info`: `"before"`/`"minus"` invert the
lower unit. -/
def apply_operator (d : GroupDict) (t : TimerInfo) : TimerInfo :=
  if dictGet d "operator" = some "before" ∨ dictGet d "operator" = some "minus"
  then
    if t.minutes > 0 then { t with minutes := 60 - t.minutes, hours := t.hours - 1 }
    else if t.hours > 0 then { t with hours := 24 - t.hours, days := t.days - 1 }
    else t
  else t

/-- `Normaliser._is_time`. -/
def is_time_calc (b : TimerInfo) (type_hint : Option String) : Bool :=
  if b.dayofweek ≠ "" ∨ b.meridiem ≠ "" ∨ b.special_hour ≠ "" ∨ b.timeofday ≠ ""
  then true
  else if b.days ≠ 0 ∨ b.seconds ≠ 0 then false
  else if strTruthy type_hint then type_hint = some "time"
  else true

/-- `Normaliser.build_timer_info`: fixed fields, numeric fields with float
carry-down, fraction words, operator inversion, then classification. -/
def build_timer_info (d : GroupDict) (sentence pattern type_hint : Option String) :
    Except Unit TimerInfo := do
  let t ← build_numeric d (build_fixed d sentence pattern)
  let t := apply_fraction d t
  let t := apply_operator d t
  Except.ok { t with is_time := is_time_calc t type_hint }

/-! ## A small regex engine with Python `re` semantics

The source assembles pattern strings at runtime
(`make_template_regex_pattern`, `make_duration_pattern`, `inString`,
`replaceInString`, `wordstonumbers`) and runs them through `re.match`,
`re.findall` and `re.sub`.  We model this with an executable engine over the
construct subset those patterns use: literals, `.`, the classes
`\d \s \w \W`, the assertions `^ $ \b`, alternation, concatenation,
grouping `( )` / `(?: )` / `(?P<name> )`, and the quantifiers `?`, `+` and
`{m}` / `{m,n}` (the latter two on classes, the only shape the source
produces).  The matcher enumerates match outcomes in exactly Python's
backtracking priority order (left alternative first, greedy quantifiers),
so taking the head outcome is `re.match`.  Character classes `[...]` and
other constructs never produced by the source are rejected at parse time,
which `run_regex` treats like `re.PatternError`. -/

/-- Character classes appearing in the source's patterns. -/
inductive Cls where
  | digit
  | space
  | word
  | nonword
  | dot
deriving DecidableEq, Repr

def Cls.memc : Cls → Char → Bool
  | .digit, c => isDigitChar c
  | .space, c => isPySpace c
  | .word, c => isWordChar c
  | .nonword, c => ¬ isWordChar c
  | .dot, c => c ≠ '\n'

inductive RE where
  | eps
  | lit (c : Char)
  | cls (k : Cls)
  | seqr (a b : RE)
  | alt (a b : RE)
  | opt (a : RE)
  | repc (k : Cls) (lo hi : Nat)
  | plusc (k : Cls)
  | group (idx : Nat) (name : Option String) (a : RE)
  | bos
  | eos
  | wordb
deriving DecidableEq, Repr

/-- Indexed captures collected along a match path (most recent first). -/
abbrev Caps := List (Nat × List Char)

def isWordO (c : Option Char) : Bool :=
  match c with
  | some c => isWordChar c
  | none => false

/-- Greedy class repetition: consuming `j` characters for `j` from the
longest possible run down to `lo`, in that (Python-greedy) order. -/
def clsRuns (k : Cls) (lo hi : Nat) (s : List Char) (prev : Option Char)
    (caps : Caps) : List (List Char × Option Char × Caps) :=
  let run := s.takeWhile k.memc
  let maxj := min hi run.length
  if maxj < lo then []
  else
    (List.range (maxj + 1 - lo)).map fun i =>
      let j := maxj - i
      let consumed := s.take j
      (s.drop j, if j = 0 then prev else consumed.getLast?, caps)

/-- All ways the regex can match a prefix of `s`, as
`(rest, previous char, captures)` triples in Python's backtracking priority
order: the head of the list is the match Python's engine finds. -/
def mrun : RE → List Char → Option Char → Caps →
    List (List Char × Option Char × Caps)
  | .eps, s, prev, caps => [(s, prev, caps)]
  | .lit c, s, _, caps =>
    match s with
    | [] => []
    | x :: xs => if x = c then [(xs, some x, caps)] else []
  | .cls k, s, _, caps =>
    match s with
    | [] => []
    | x :: xs => if k.memc x then [(xs, some x, caps)] else []
  | .seqr a b, s, prev, caps =>
    (mrun a s prev caps).flatMap fun (s', p', c') => mrun b s' p' c'
  | .alt a b, s, prev, caps => mrun a s prev caps ++ mrun b s prev caps
  | .opt a, s, prev, caps => mrun a s prev caps ++ [(s, prev, caps)]
  | .repc k lo hi, s, prev, caps => clsRuns k lo hi s prev caps
  | .plusc k, s, prev, caps => clsRuns k 1 s.length s prev caps
  | .group idx _ a, s, prev, caps =>
    (mrun a s prev caps).map fun (s', p', c') =>
      (s', p', (idx, s.take (s.length - s'.length)) :: c')
  | .bos, s, prev, caps =>
    match prev with
    | none => [(s, prev, caps)]
    | some _ => []
  | .eos, s, prev, caps =>
    match s with
    | [] => [(s, prev, caps)]
    | _ :: _ => []
  | .wordb, s, prev, caps =>
    if isWordO prev ≠ isWordO s.head? then [(s, prev, caps)] else []

/-- Declared capturing groups `(index, name)` in source order. -/
def declaredGroups : RE → List (Nat × Option String)
  | .seqr a b => declaredGroups a ++ declaredGroups b
  | .alt a b => declaredGroups a ++ declaredGroups b
  | .opt a => declaredGroups a
  | .group idx name a => (idx, name) :: declaredGroups a
  | _ => []

/-! ### Parsing a pattern string into `RE`

Recursive descent with fuel; group indices are assigned in order of opening
parentheses, named and unnamed alike, as in Python. -/

def readGroupName (cs : List Char) (acc : List Char) :
    Option (String × List Char) :=
  match cs with
  | [] => none
  | '>' :: rest => some (String.mk acc, rest)
  | c :: rest => readGroupName rest (acc ++ [c])

def readNat (cs : List Char) (acc : Nat) (seen : Bool) :
    Option (Nat × List Char) :=
  match cs with
  | c :: rest =>
    if isDigitChar c then readNat rest (acc * 10 + digitVal c) true
    else if seen then some (acc, rest.cons c) else none
  | [] => if seen then some (acc, []) else none

/-- The four grammar levels of the descent:
`alt := cat ('|' cat)*`, `cat := piece*` (stopping at `|`, `)` or the end),
`piece := atom quant?`, and the atoms. -/
inductive PMode where
  | palt
  | pcat
  | ppiece
  | patom
deriving DecidableEq

/-- One fuel-indexed recursive descent covering all four levels (a single
structurally recursive function so that it reduces definitionally). -/
def parseStep : Nat → PMode → List Char → Nat →
    Option (RE × List Char × Nat)
  | 0, _, _, _ => none
  | fuel + 1, PMode.palt, cs, gi => do
    let (a, rest, gi) ← parseStep fuel PMode.pcat cs gi
    match rest with
    | '|' :: rest' => do
      let (b, rest'', gi') ← parseStep fuel PMode.palt rest' gi
      some (RE.alt a b, rest'', gi')
    | _ => some (a, rest, gi)
  | fuel + 1, PMode.pcat, cs, gi =>
    (match cs with
     | [] => some (RE.eps, [], gi)
     | '|' :: _ => some (RE.eps, cs, gi)
     | ')' :: _ => some (RE.eps, cs, gi)
     | _ => do
       let (a, rest, gi) ← parseStep fuel PMode.ppiece cs gi
       let (b, rest', gi') ← parseStep fuel PMode.pcat rest gi
       some (if b = RE.eps then a else RE.seqr a b, rest', gi'))
  | fuel + 1, PMode.ppiece, cs, gi => do
    let (a, rest, gi) ← parseStep fuel PMode.patom cs gi
    match rest with
    | '?' :: rest' => some (RE.opt a, rest', gi)
    | '+' :: rest' =>
      (match a with
       | RE.cls k => some (RE.plusc k, rest', gi)
       | _ => none)
    | '{' :: rest' =>
      (match readNat rest' 0 false with
       | some (lo, after) =>
         (match after with
          | '}' :: rest'' =>
            (match a with
             | RE.cls k => some (RE.repc k lo lo, rest'', gi)
             | _ => none)
          | ',' :: after' =>
            (match readNat after' 0 false with
             | some (hi, '}' :: rest'') =>
               (match a with
                | RE.cls k => some (RE.repc k lo hi, rest'', gi)
                | _ => none)
             | _ => none)
          | _ => some (a, rest, gi))
       | none => some (a, rest, gi))
    | _ => some (a, rest, gi)
  | fuel + 1, PMode.patom, cs, gi =>
    match cs with
    | '(' :: '?' :: ':' :: rest => do
      let (a, rest', gi') ← parseStep fuel PMode.palt rest gi
      match rest' with
      | ')' :: rest'' => some (a, rest'', gi')
      | _ => none
    | '(' :: '?' :: 'P' :: '<' :: rest => do
      let (name, rest') ← readGroupName rest []
      let (a, rest'', gi') ← parseStep fuel PMode.palt rest' (gi + 1)
      match rest'' with
      | ')' :: rest''' => some (RE.group gi (some name) a, rest''', gi')
      | _ => none
    | '(' :: rest => do
      let (a, rest', gi') ← parseStep fuel PMode.palt rest (gi + 1)
      match rest' with
      | ')' :: rest'' => some (RE.group gi none a, rest'', gi')
      | _ => none
    | '\\' :: c :: rest =>
      let atom :=
        if c = 'd' then RE.cls Cls.digit
        else if c = 's' then RE.cls Cls.space
        else if c = 'w' then RE.cls Cls.word
        else if c = 'W' then RE.cls Cls.nonword
        else if c = 'b' then RE.wordb
        else RE.lit c
      some (atom, rest, gi)
    | '\\' :: [] => none
    | '^' :: rest => some (RE.bos, rest, gi)
    | '$' :: rest => some (RE.eos, rest, gi)
    | '.' :: rest => some (RE.cls Cls.dot, rest, gi)
    | '[' :: _ => none
    | '*' :: _ => none
    | c :: rest => some (RE.lit c, rest, gi)
    | [] => none

/-- Compile a pattern string; `none` models `re.PatternError` (or a construct
outside the engine's subset, which no pattern built by the source contains). -/
def parseRE (pattern : List Char) : Option RE :=
  match parseStep (pattern.length * 2 + 8) PMode.palt pattern 1 with
  | some (r, [], _) => some r
  | _ => none

/-! ### `re.match`, `re.findall`, `re.sub` -/

/-- `re.match(r, s)` and `groupdict()`: the head outcome of the matcher at
position 0; every declared named group maps to its last capture or `None`. -/
def reMatchGroupdict (r : RE) (s : List Char) : Option GroupDict :=
  match (mrun r s none []).head? with
  | none => none
  | some (_, _, caps) =>
    some <| (declaredGroups r).filterMap fun (idx, name) =>
      match name with
      | none => none
      | some n =>
        some (n, (caps.find? (fun kv => kv.1 = idx)).map fun kv =>
          String.mk kv.2)

/-- One scanning step at a fixed position: Python's leftmost-match search
tries the pattern at the current position only (the caller advances). -/
def matchHere (r : RE) (s : List Char) (prev : Option Char) :
    Option (Nat × Caps) :=
  match (mrun r s prev []).head? with
  | none => none
  | some (rest, _, caps) => some (s.length - rest.length, caps)

/-- Prepend a character to the gap before the next matched piece (or to the
unmatched tail when no further match exists). -/
def consGap (c : Char) :
    List (List Char × List Char × Caps) × List Char →
    List (List Char × List Char × Caps) × List Char
  | ([], tail) => ([], c :: tail)
  | ((g, m, cp) :: ps, tail) => ((c :: g, m, cp) :: ps, tail)

/-- The non-overlapping left-to-right scan shared by `re.findall` and
`re.sub`: returns `(gap, matched, caps)` pieces and the unmatched tail.
After a zero-width match Python advances one character; that character
belongs to the gap before the next match. -/
def scanAll (r : RE) : Nat → List Char → Option Char →
    List (List Char × List Char × Caps) × List Char
  | 0, s, _ => ([], s)
  | fuel + 1, s, prev =>
    match matchHere r s prev with
    | some (len, caps) =>
      if len = 0 then
        match s with
        | [] => ([([], [], caps)], [])
        | c :: rest =>
          let pr := consGap c (scanAll r fuel rest (some c))
          (([], [], caps) :: pr.1, pr.2)
      else
        let matched := s.take len
        let (pieces, tail) := scanAll r fuel (s.drop len) matched.getLast?
        (([], matched, caps) :: pieces, tail)
    | none =>
      match s with
      | [] => ([], [])
      | c :: rest => consGap c (scanAll r fuel rest (some c))

/-- `re.findall(r, s)` when the pattern has exactly one capturing group (the
shape `inString` builds): the list of group-1 captures, with `""` for a
non-participating group. -/
def reFindall1 (r : RE) (s : List Char) : List (List Char) :=
  ((scanAll r (s.length + 1) s none).1).map fun (_, _, caps) =>
    match caps.find? (fun kv => kv.1 = 1) with
    | some kv => kv.2
    | none => []

/-- `re.findall(r, s)` for a pattern with two capturing groups: pairs of
captures (the shape `WordsToDigits.convert` uses). -/
def reFindall2 (r : RE) (s : List Char) : List (List Char × List Char) :=
  ((scanAll r (s.length + 1) s none).1).map fun (_, _, caps) =>
    ((caps.find? (fun kv => kv.1 = 1)).map (·.2) |>.getD [],
     (caps.find? (fun kv => kv.1 = 2)).map (·.2) |>.getD [])

/-- `re.sub(r, repl, s)` with a literal replacement string. -/
def reSub (r : RE) (repl s : List Char) : List Char :=
  let (pieces, tail) := scanAll r (s.length + 1) s none
  (pieces.flatMap fun (gap, _, _) => gap ++ repl) ++ tail

/-- `re.escape` (Python ≥ 3.7): backslash everything except ASCII letters,
digits and underscore. -/
def reEscape (s : List Char) : List Char :=
  s.flatMap fun c => if isWordChar c then [c] else ['\\', c]

/-! ## normaliser.py pattern constants (verbatim) -/

namespace RegexPatterns

def STDTIME : String := "(?P<hours>\\d{1,2})(?::|h|\\s)?(?P<minutes>\\d{1,2})?"
def DAYS : String := "(?P<days>\\d+)"
def HOURS : String := "(?P<hours>\\d{1,2})"
def MINUTES : String := "(?P<minutes>\\d{1,2})"
def FRACTIONS : String := "(?P<fractions>half|quarter|threequarter)"
def TIMEOFDAY : String :=
  "(?P<time_of_day>am|pm|morning|afternoon|evening|night|tonight)"
def DAY : String :=
  "(?P<day>monday|tuesday|wednesday|thursday|friday|saturday|sunday|today|tomorrow)"
def SPECIAL_HOUR : String := "(?P<special_hour>noon|midnight)"
def OPERATOR : String := "(?P<operator>and|minus|after|before)"
def JOINER_WORDS : String := "(?:on|this|at|,)"

end RegexPatterns

namespace RegexDurationPatterns

def DAYS : String := "((?P<days>\\d{1,2}(.\\d+)?)(?:\\s)?(?:days|day|d)\\b)?"
def HOURS : String := "((?P<hours>\\d{1,2}(.\\d+)?)(?:\\s)?(?:hours|hour|h)\\b)?"
def MINUTES : String :=
  "((?P<minutes>\\d{1,2}(.\\d+)?)(?:\\s)?(?:minutes|minute|mins|min|m)\\b)?"
def SECONDS : String :=
  "((?P<seconds>\\d{1,2})(?:\\s)?(?:seconds|second|secs|sec|s)\\b)?"
def JOIN : String := "(?:,\\s|\\sand\\s|\\s)?"

end RegexDurationPatterns

def REGEXLOOKUP : List (String × String) :=
  [("std_time", RegexPatterns.STDTIME),
   ("days", RegexPatterns.DAYS),
   ("hours", RegexPatterns.HOURS),
   ("minutes", RegexPatterns.MINUTES),
   ("fractions", RegexPatterns.FRACTIONS),
   ("time_of_day", RegexPatterns.TIMEOFDAY),
   ("day", RegexPatterns.DAY),
   ("special_hour", RegexPatterns.SPECIAL_HOUR),
   ("operator", RegexPatterns.OPERATOR),
   ("joiner_words", RegexPatterns.JOINER_WORDS)]

def STD_TIME_PATTERNS : List String :=
  ["{special_hour}",
   "{std_time}",
   "{std_time}{time_of_day}",
   "{std_time} {time_of_day}",
   "{std_time} {time_of_day} {day}",
   "{std_time} {day}",
   "{std_time} {day} {time_of_day}",
   "{std_time} {joiner_words} {time_of_day}",
   "{std_time} {joiner_words} {day}",
   "{std_time} {joiner_words} {day} {time_of_day}",
   "{day} {std_time}",
   "{day} {std_time} {time_of_day}",
   "{day} {joiner_words} {std_time}",
   "{day} {joiner_words} {std_time} {time_of_day}",
   "{day} {joiner_words} {time_of_day}",
   "{day} {joiner_words} {special_hour}"]

/-! ## Template-to-regex assembly -/

/-- Find the first occurrence of a character, splitting around it. -/
def splitAtChar (c : Char) : List Char → Option (List Char × List Char)
  | [] => none
  | x :: rest =>
    if x = c then some ([], rest)
    else (splitAtChar c rest).map fun (a, b) => (x :: a, b)

/-- `re.findall(r"\[(.*?)\]", pattern)`: for each `[`, the (lazy, i.e.
shortest) content up to the next `]`; scanning continues after it. -/
def findBracketItems (fuel : Nat) (s : List Char) : List (List Char) :=
  match fuel with
  | 0 => []
  | fuel + 1 =>
    match s with
    | [] => []
    | '[' :: rest =>
      match splitAtChar ']' rest with
      | some (content, after) => content :: findBracketItems fuel after
      | none => []
    | _ :: rest => findBracketItems fuel rest

/-- Python `items.split(",")` (keeping empty pieces). -/
def splitComma (s : List Char) : List (List Char) :=
  let rec go (s : List Char) (cur : List Char) (acc : List (List Char)) :
      List (List Char) :=
    match s with
    | [] => (cur.reverse :: acc).reverse
    | c :: rest =>
      if c = ',' then go rest [] (cur.reverse :: acc)
      else go rest (c :: cur) acc
  go s [] []

def joinBar (parts : List (List Char)) : List Char :=
  match parts with
  | [] => []
  | p :: rest => p ++ (rest.flatMap fun q => '|' :: q)

/-- `Normaliser.make_template_regex_pattern`: substitute the `{placeholder}`
vocabulary, rewrite `[a, b] `-style optional segments, then anchor. -/
def make_template_regex_pattern (template : List Char) : List Char :=
  let pattern := REGEXLOOKUP.foldl
    (fun pat (key, sub) =>
      replaceAllL ('{' :: key.data ++ ['}']) sub.data pat)
    template
  let optional_items := findBracketItems (pattern.length + 1) pattern
  let pattern := optional_items.foldl
    (fun pat items =>
      let optional := (splitComma (pyStrip items)).map pyStrip
      replaceAllL ('[' :: items ++ [']', ' '])
        ("(?:^|\\b)(?:".data ++ joinBar optional ++ "\\s)?".data) pat)
    pattern
  '^' :: pattern ++ ['$']

/-- `Normaliser.make_duration_pattern`. -/
def make_duration_pattern : String :=
  "^" ++ RegexDurationPatterns.DAYS ++ RegexDurationPatterns.JOIN ++
    RegexDurationPatterns.HOURS ++ RegexDurationPatterns.JOIN ++
    RegexDurationPatterns.MINUTES ++ RegexDurationPatterns.JOIN ++
    RegexDurationPatterns.SECONDS ++ "$"

/-- `Normaliser.run_regex`: build the template's regex and `re.match` it;
a pattern the engine cannot compile behaves like the source's
`except re.PatternError: pass`. -/
def run_regex (template : String) (s : List Char) : Option GroupDict :=
  match parseRE (make_template_regex_pattern template.data) with
  | none => none
  | some r => reMatchGroupdict r s

/-! ## inString / replaceInString -/

/-- `Normaliser.inString`.  A list argument is escaped, filtered of falsy
entries and joined with `|`; a plain-string argument (the `remove_words`
loop) is inserted into the pattern as-is. -/
def inString (string : List Char) (find : Sum (List Char) (List (List Char))) :
    Option (List (List Char)) :=
  let findStr :=
    match find with
    | Sum.inr lst => joinBar ((lst.filter (· ≠ [])).map reEscape)
    | Sum.inl s => s
  let pattern := "(?:^|\\b)(".data ++ findStr ++ ")(?:,|\\b|$)".data
  match parseRE pattern with
  | none => none
  | some r =>
    let m := reFindall1 r string
    if m ≠ [] then some m else none

/-- `Normaliser.replaceInString`: substitute every occurrence, consuming the
trailing comma/non-word character the third group captures, inserting the
replacement padded with spaces. -/
def replaceInString (string find replace : List Char) : List Char :=
  let pattern := "(^|\\b)(".data ++ pyStrip find ++ ")(,|\\W|\\b|$)".data
  match parseRE pattern with
  | none => string
  | some r => reSub r (' ' :: (replace ++ [' '])) string

/-! ## Language packs

The JSON pack files under `translations/timers/` are data, not source; the
embedded functions take their decoded content as parameters.  `Option`'s
`none` models `load_language_pack` returning `None` (missing file or
`JSONDecodeError`), which `normalise` treats the same as a falsy pack. -/

structure NormPack where
  direct_translations : List (String × List String) := []
  durations : List (String × List String) := []
  operators : List (String × List String) := []
  meridiem : List (String × List String) := []
  fractions : List (String × List String) := []
  special_hours : List (String × List String) := []
  remove_words : List String := []
deriving Repr

structure LangPack where
  /-- The keys of the pack's `numbers` mapping (only the keys are consulted
  by `normalise`'s word-to-digit gate). -/
  numbers : List String := []
  structures : List (String × List String) := []
deriving Repr

/-- One vocabulary collection pass of `Normaliser.normalise_words`. -/
def normalise_collection (string : List Char)
    (entries : List (String × List String)) : List Char :=
  entries.foldl
    (fun s (word, values) =>
      if values ≠ [] then
        match inString s (Sum.inr (values.map String.data)) with
        | some ms => ms.foldl (fun s m => replaceInString s m word.data) s
        | none => s
      else s)
    string

/-- `Normaliser.normalise_words`: lowercase, then substitute the collections
in the source's order (direct translations, durations, operators, meridiem,
fractions, special hours). -/
def normalise_words (norm : NormPack) (string : List Char) : List Char :=
  let s := pyLower string
  let s := normalise_collection s norm.direct_translations
  let s := normalise_collection s norm.durations
  let s := normalise_collection s norm.operators
  let s := normalise_collection s norm.meridiem
  let s := normalise_collection s norm.fractions
  normalise_collection s norm.special_hours

/-! ## wordstonumbers.py -/

def numbersTable : List (String × String) :=
  [("zero", "0"), ("one", "1"), ("two", "2"), ("three", "3"), ("four", "4"),
   ("five", "5"), ("six", "6"), ("seven", "7"), ("eight", "8"), ("nine", "9"),
   ("ten", "10"), ("eleven", "11"), ("twelve", "12"), ("thirteen", "13"),
   ("fourteen", "14"), ("fifteen", "15"), ("sixteen", "16"),
   ("seventeen", "17"), ("eighteen", "18"), ("nineteen", "19"),
   ("twenty", "20"), ("thirty", "30"), ("forty", "40"), ("fifty", "50"),
   ("sixty", "60"), ("seventy", "70"), ("eighty", "80"), ("ninety", "90"),
   ("hundred", "100"), ("thousand", "1000"), ("million", "1000000"),
   ("billion", "1000000000")]

def numbersLookup (k : List Char) : List Char :=
  match numbersTable.find? (fun kv => kv.1.data = k) with
  | some kv => kv.2.data
  | none => []

def tensAlternation : String :=
  "twenty|thirty|forty|fifty|sixty|seventy|eighty|ninety"

def unitsAlternation : String := "one|two|three|four|five|six|seven|eight|nine"

/-- `WordsToDigits.convert`: fold tens+units compounds into a single number,
then replace each remaining number word by its digits, then collapse
whitespace. -/
def wordsToDigitsConvert (s : List Char) : List Char :=
  let s := pyLower s
  let word_pattern :=
    "(?:^|\\s)(".data ++ tensAlternation.data ++ ") (".data ++
      unitsAlternation.data ++ ")(?:$|\\s)".data
  let s :=
    match parseRE word_pattern with
    | none => s
    | some r =>
      (reFindall2 r s).foldl
        (fun s (m0, m1) =>
          let p := "(?:^|\\s)(".data ++ m0 ++ ") (".data ++ m1 ++
            ")(?:$|\\s)".data
          match parseRE p with
          | none => s
          | some rp =>
            let total := digitsVal (numbersLookup m0) + digitsVal (numbersLookup m1)
            reSub rp (' ' :: ((Nat.repr total).data ++ [' '])) s)
        s
  let all_numbers := joinBar (numbersTable.map fun kv => kv.1.data)
  let word_pattern2 := '(' :: all_numbers ++ ")\\b".data
  let s :=
    match parseRE word_pattern2 with
    | none => s
    | some r =>
      (reFindall1 r s).foldl
        (fun s group =>
          let p := "(?:^|\\s)(".data ++ group ++ ")(?:$|\\s)".data
          match parseRE p with
          | none => s
          | some rp => reSub rp (' ' :: (numbersLookup group ++ [' '])) s)
        s
  let s :=
    match parseRE "\\s+".data with
    | none => s
    | some r => reSub r [' '] s
  pyStrip s

/-! ## The pattern-matching phase of `Normaliser.normalise` -/

/-- The per-iteration cleanup inside the standard-time loop:
`" ".join(s.replace("oclock", "").split())`. -/
def clean_std (s : List Char) : List Char :=
  joinSpace (splitWs (replaceAllL "oclock".data [] s))

/-- The standard-time pattern loop (returns the built `TimerInfo` — or the
propagated exception — on the first full match, else the final cleaned
working string). -/
def std_loop (pats : List String) (s : List Char) (orig : String) :
    Sum (Except Unit TimerInfo) (List Char) :=
  match pats with
  | [] => Sum.inr s
  | p :: rest =>
    let s := clean_std s
    match run_regex p s with
    | some m => Sum.inl (build_timer_info m (some orig) (some p) (some "time"))
    | none => std_loop rest s orig

def structuresGet (structures : List (String × List String)) (k : String) :
    List String :=
  match structures.find? (fun kv => kv.1 = k) with
  | some kv => kv.2
  | none => []

/-- The `{basic_time}` expansion loop inside the structures phase. -/
def basic_loop (str_pattern : String) (basics : List String) (s : List Char)
    (orig : String) (th : Option String) : Option (Except Unit TimerInfo) :=
  match basics with
  | [] => none
  | bp :: rest =>
    match run_regex
        (String.mk (replaceAllL "{basic_time}".data bp.data str_pattern.data))
        s with
    | some m => some (build_timer_info m (some orig) (some bp) th)
    | none => basic_loop str_pattern rest s orig th

/-- The inner pattern loop of the structures phase. -/
def patterns_loop (pats : List String)
    (structures : List (String × List String)) (s : List Char) (orig : String)
    (th : Option String) : Option (Except Unit TimerInfo) :=
  match pats with
  | [] => none
  | p :: rest =>
    if containsSub "{basic_time}".data p.data then
      match basic_loop p (structuresGet structures "basic_time") s orig th with
      | some r => some r
      | none => patterns_loop rest structures s orig th
    else
      match run_regex p s with
      | some m => some (build_timer_info m (some orig) (some p) th)
      | none => patterns_loop rest structures s orig th

/-- The outer loop over the language pack's structure groups. -/
def structures_loop (groups structures : List (String × List String))
    (s : List Char) (orig : String) (th : Option String) :
    Option (Except Unit TimerInfo) :=
  match groups with
  | [] => none
  | (_, pats) :: rest =>
    match patterns_loop pats structures s orig th with
    | some r => some r
    | none => structures_loop rest structures s orig th

/-- Lines 314–357 of `normaliser.py`: standard-time patterns first, then the
language-pack structures, then the generic duration pattern; `ok none` is
the "Unable to decode" fall-through. -/
def match_phase (structures : List (String × List String)) (s : List Char)
    (orig : String) (th : Option String) : Except Unit (Option TimerInfo) :=
  match std_loop STD_TIME_PATTERNS s orig with
  | Sum.inl r => r.map some
  | Sum.inr s =>
    match structures_loop structures structures s orig th with
    | some r => r.map some
    | none =>
      match run_regex make_duration_pattern s with
      | some m =>
        (build_timer_info m (some orig) (some "durations")
          (some "interval")).map some
      | none => Except.ok none

/-- `Normaliser.normalise`.  When either pack fails to load (or is falsy)
the body is skipped and the function returns `None` — the same value the
no-pattern-match path produces. -/
def normalise (normalisations : Option NormPack) (lang : Option LangPack)
    (string : String) (type_hint : Option String) :
    Except Unit (Option TimerInfo) :=
  match normalisations, lang with
  | some norm, some lp =>
    let s := normalise_words norm string.data
    let s := norm.remove_words.foldl
      (fun s word =>
        match inString s (Sum.inl word.data) with
        | some ms => ms.foldl (fun s m => replaceInString s m []) s
        | none => s)
      s
    let s :=
      if lp.numbers.any (fun n => n ≠ "" ∧ containsSub n.data s) then
        wordsToDigitsConvert (joinSpace (splitWs s))
      else s
    match_phase lp.structures s string type_hint
  | _, _ => Except.ok none

/-! ## timers.py: `Timers.get_expiry_from_timerinfo`

Timestamps are `Int` seconds of local (fixed-offset) time with second 0 on a
Monday 00:00, so `replace(hour=0, minute=0, second=0, microsecond=0)` is
`startOfDayI`, `.weekday()` is `weekdayI`, `.hour`/`.minute` are
`hourI`/`minuteI`, and `timedelta` addition is plain addition of seconds.
Python's `%` and `//` on a positive divisor are `Int.emod`/`Int.ediv`.
The function returns the post-call state of the (mutated) `TimerInfo`
alongside the returned expiry; `Except.error ()` models the uncaught
`ValueError` that `WEEKDAYS.index` raises on an unlisted day token. -/

def WEEKDAYS : List String :=
  ["monday", "tuesday", "wednesday", "thursday", "friday", "saturday",
   "sunday"]

def startOfDayI (t : Int) : Int := t - t % 86400

def weekdayI (t : Int) : Int := (t / 86400) % 7

def hourI (t : Int) : Int := (t % 86400) / 3600

def minuteI (t : Int) : Int := ((t % 86400) % 3600) / 60

/-- Lines 598–599: the in-place `timerinfo.hours += 12` correction (note it
tests the `timeofday` field, not `meridiem`). -/
def correct_pm (t : TimerInfo) : TimerInfo :=
  if t.timeofday = "pm" ∧ t.hours < 12 then { t with hours := t.hours + 12 }
  else t

/-- Lines 610–635: the "Add days part" block on the base expiry.
`WEEKDAYS.index` raising `ValueError` on a token that is neither a weekday
nor `"tomorrow"` (such as `"today"`) is `Except.error ()`. -/
def dow_step (t : TimerInfo) (expiry : Int) : Except Unit Int :=
  if t.dayofweek ≠ "" then
    if t.dayofweek = "tomorrow" then Except.ok (expiry + 86400)
    else
      match WEEKDAYS.findIdx? (fun d => d = t.dayofweek) with
      | none => Except.error ()
      | some idx =>
        let days_ahead := ((idx : Int) - weekdayI expiry + 7) % 7
        let days_ahead :=
          if days_ahead = 0 ∧ (t.hours < hourI expiry ∨
              (t.hours = hourI expiry ∧ t.minutes ≤ minuteI expiry))
          then 7 else days_ahead
        Except.ok (expiry + days_ahead * 86400)
  else Except.ok expiry

/-- Lines 601–644 on the already-corrected record: base time, day-of-week
adjustment, past-time rollover; the function also returns the record since
the caller's `TimerInfo` object retains the mutation. -/
def resolve_time (t : TimerInfo) (now : Int) :
    Except Unit (Option TimerInfo × Option Int) :=
  let expiry := startOfDayI now + t.hours * 3600 + t.minutes * 60 + t.seconds
  match dow_step t expiry with
  | Except.error _ => Except.error ()
  | Except.ok expiry =>
    let expiry :=
      if expiry < now then
        (if t.timeofday ≠ "" then expiry + 86400 else expiry + 43200)
      else expiry
    Except.ok (some t, some expiry)

def get_expiry_from_timerinfo (timerinfo : Option TimerInfo) (now : Int) :
    Except Unit (Option TimerInfo × Option Int) :=
  match timerinfo with
  | none => Except.ok (none, none)
  | some t0 =>
    if t0.is_time then resolve_time (correct_pm t0) now
    else
      Except.ok (some t0, some (now + t0.days * 86400 + t0.hours * 3600 +
        t0.minutes * 60 + t0.seconds))

/-! ## Concrete pack instances used by the claim theorems

The JSON pack files are not part of the source tree, so claims about the
matching pipeline are evaluated with minimal packs: empty vocabulary
collections make the word-normalisation steps the identity (apart from
lowercasing), which is exactly the situation for input already written in
normalised tokens. -/

def npEmpty : NormPack := {}

def lpEmpty : LangPack := {}

/-- A language pack with one structure group, used to show that a matching
standard-time pattern takes priority over everything that follows. -/
def lpDemo : LangPack :=
  { structures := [("basic_time", ["{std_time} {joiner_words} {time_of_day}"])] }

/-- First standard-time pattern (in list order) that fully matches. -/
def firstStdMatch (s : List Char) : Option (String × GroupDict) :=
  STD_TIME_PATTERNS.findSome? fun p => (run_regex p s).map fun m => (p, m)

/-- Wednesday 10:00 in the timestamp model (epoch second 0 = Monday 00:00). -/
def nowWednesday10 : Int := 2 * 86400 + 10 * 3600

/-! ## C1 -/

/-- C1: the claim states that a named weekday advances to its next
occurrence, with a 0-day advance allowed when the named weekday is today and
the computed time-of-day is still ahead of `now`.  The code instead compares
the requested hour/minute against the computed expiry's own hour/minute
(`timerinfo.hours < expiry.hour or (timerinfo.hours == expiry.hour and
timerinfo.minutes <= expiry.minute)`), which holds identically for in-range
fields, so a same-day weekday always rolls 7 days forward: at
now = Wednesday 10:00, "wednesday 11:00" lands 7 days ahead (817200 s =
next Wednesday 11:00) even though 11:00 is still in the future today.  The
"monday at 9am" part of the claim does hold: +5 days (637200 s = Monday
09:00). -/
theorem va_c1_dayofweek_rollover_eval :
    get_expiry_from_timerinfo
        (some { is_time := true, dayofweek := "wednesday", hours := 11 })
        nowWednesday10 =
      Except.ok (some { is_time := true, dayofweek := "wednesday", hours := 11 },
        some (9 * 86400 + 11 * 3600)) ∧
    get_expiry_from_timerinfo
        (some { is_time := true, dayofweek := "monday", hours := 9 })
        nowWednesday10 =
      Except.ok (some { is_time := true, dayofweek := "monday", hours := 9 },
        some (7 * 86400 + 9 * 3600)) := by
  constructor <;> rfl

/-! ## C2 -/

/-- C2: the claim states the day-of-week resolution step is total over all
recognized day tokens (monday..sunday, today, tomorrow) and that "today"
means no adjustment.  The pattern vocabulary does recognise "today" (the
`{day}` regex captures it, as the first conjunct shows end-to-end for the
sentence "9:30 today"), but the resolver's `WEEKDAYS.index(...)` call only
knows the seven weekday names, so a `TimerInfo` carrying
`dayofweek = "today"` raises `ValueError` instead of resolving. -/
theorem va_c2_today_raises :
    normalise (some npEmpty) (some lpEmpty) "9:30 today" none =
      Except.ok (some { hours := 9,
                        minutes := 30,
                        dayofweek := "today",
                        is_time := true,
                        sentence := some "9:30 today",
                        pattern := some "{std_time} {day}" }) ∧
    get_expiry_from_timerinfo
        (some { hours := 9,
                minutes := 30,
                dayofweek := "today",
                is_time := true,
                sentence := some "9:30 today",
                pattern := some "{std_time} {day}" })
        nowWednesday10 = Except.error () := by
  constructor <;> rfl

/-! ## C10 -/

/-- C10: the generic duration regex writes its fractional part as an
unescaped dot (`\d{1,2}(.\d+)?`), so "1x5 hours" is matched by the duration
pattern with the non-numeric capture `hours = "1x5"`, and `build_timer_info`
then raises `ValueError` from `int("1x5")`: the whole decode call errors
instead of returning the null decode-failure result. -/
theorem va_c10_duration_dot_valueerror :
    run_regex make_duration_pattern "1x5 hours".data =
      some [("days", none), ("hours", some "1x5"), ("minutes", none),
        ("seconds", none)] ∧
    normalise (some npEmpty) (some lpEmpty) "1x5 hours" none =
      Except.error () := by
  constructor <;> rfl

/-! ## C6 -/

/-- Formalisation of claim C6 as stated: the normaliser's null result is
produced only by the no-pattern-match case, never by a pack-load failure
(which the claim says is recovered internally). -/
def c6_claim : Prop :=
  ∀ (np : Option NormPack) (lp : Option LangPack) (s : String)
    (th : Option String),
    normalise np lp s th = Except.ok none → np.isSome ∧ lp.isSome

/-- C6 counterexample: with the normaliser pack failed to load
(`none`), `normalise` returns the null result for "12:30" — a sentence the
loaded pipeline decodes (see `va_c6_pack_failure_null`'s witness) — so a
pack-load failure is surfaced as the decode-failure result. -/
theorem va_c6_counterexample : ¬ c6_claim := by
  intro h
  have := (h none (some lpEmpty) "12:30" none (by rfl)).1
  simp [Option.isSome] at this

/-- C6 (amended): a pack-load failure in the normaliser is not recovered —
`Normaliser.load_language_pack` returns `None` with no English fallback —
and `normalise` then skips all matching and returns the same null result as
the no-pattern-match case. -/
theorem va_c6_pack_failure_null :
    ∀ (np : Option NormPack) (lp : Option LangPack) (s : String)
      (th : Option String),
      np = none ∨ lp = none → normalise np lp s th = Except.ok none := by
  intro np lp s th h
  rcases h with h | h
  · subst h; rfl
  · subst h; cases np <;> rfl

/-- C6 witness: the hypothesis holds at `np = none`, and the theorem yields
the null result for "12:30" even though the loaded pipeline decodes that
sentence to a 12:30 clock time. -/
theorem va_c6_pack_failure_null_witness :
    ((none : Option NormPack) = none ∨ (some lpEmpty : Option LangPack) = none) ∧
    normalise none (some lpEmpty) "12:30" none = Except.ok none ∧
    normalise (some npEmpty) (some lpEmpty) "12:30" none =
      Except.ok (some { hours := 12,
                        minutes := 30,
                        is_time := true,
                        sentence := some "12:30",
                        pattern := some "{std_time}" }) :=
  ⟨Or.inl rfl,
   va_c6_pack_failure_null none (some lpEmpty) "12:30" none (Or.inl rfl),
   by rfl⟩

/-! ## C3 -/

/-- Formalisation of claim C3 as stated (the refuted part): the fraction is
added to exactly one unit by exclusive precedence, so when minutes are
non-zero only seconds receive the fraction and minutes, hours and days are
left unchanged. -/
def c3_claim : Prop :=
  ∀ (d : GroupDict) (s p th : Option String) (t0 t1 : TimerInfo) (f : String),
    build_numeric d (build_fixed d s p) = Except.ok t0 →
    dictGet d "fractions" = some f →
    (f = "half" ∨ f = "quarter" ∨ f = "threequarter") →
    build_timer_info d s p th = Except.ok t1 →
    t0.minutes > 0 →
    t1.seconds = t0.seconds + fracMulTrunc (fraction_multiplier f) 60 ∧
    t1.minutes = t0.minutes ∧ t1.hours = t0.hours ∧ t1.days = t0.days

/-- C3 counterexample: on the field map `{hours: "1", minutes: "30",
fractions: "half"}` the built timer has `seconds = 30` and `minutes = 60` —
both the seconds and the minutes receive the half, because the source's
first test (`if timer.minutes > 0`) is an independent `if` rather than part
of the `elif` chain.  The claim's exclusive precedence would leave
`minutes = 30`. -/
theorem va_c3_counterexample : ¬ c3_claim := by
  intro h
  have := h [("hours", some "1"), ("minutes", some "30"),
      ("fractions", some "half")] none none none
    { hours := 1, minutes := 30 } { hours := 1, minutes := 60, seconds := 30 }
    "half" (by rfl) (by rfl) (Or.inl rfl) (by rfl) (by norm_num)
  exact absurd this.2.1 (by norm_num)

/-- C3 (amended): `build_timer_info` resolves a fraction word
(half = 0.5, quarter = 0.25, threequarter = 0.75) by adding fraction×60 to
seconds whenever minutes are non-zero, and — independently of that, not
exclusively — adding fraction×60 to minutes if hours are non-zero, else
fraction×24 to hours if days are non-zero, else fraction×60 to minutes if
minutes are zero.  When at most one of minutes/hours/days is non-zero this
coincides with the claim's exclusive precedence; when minutes and hours (or
minutes and days) are both non-zero, two units receive a contribution. -/
theorem va_c3_fraction_contributions :
    ∀ (d : GroupDict) (s p th : Option String) (t0 : TimerInfo) (f : String),
      build_numeric d (build_fixed d s p) = Except.ok t0 →
      dictGet d "fractions" = some f →
      (f = "half" ∨ f = "quarter" ∨ f = "threequarter") →
      ¬ (dictGet d "operator" = some "before" ∨
          dictGet d "operator" = some "minus") →
      ∃ t1, build_timer_info d s p th = Except.ok t1 ∧
        t1.days = t0.days ∧
        t1.seconds = t0.seconds +
          (if t0.minutes > 0 then fracMulTrunc (fraction_multiplier f) 60
           else 0) ∧
        t1.minutes = t0.minutes +
          (if t0.hours > 0 ∨ (¬ t0.hours > 0 ∧ ¬ t0.days > 0 ∧ t0.minutes = 0)
           then fracMulTrunc (fraction_multiplier f) 60 else 0) ∧
        t1.hours = t0.hours +
          (if ¬ t0.hours > 0 ∧ t0.days > 0
           then fracMulTrunc (fraction_multiplier f) 24 else 0) := by
  intro d s p th t0 f hnum hfr hfc hop
  have hf : strTruthy (dictGet d "fractions") = true := by
    rw [hfr]; rcases hfc with h | h | h <;> subst h <;> decide
  have hu : apply_fraction d t0 =
      (let m := fraction_multiplier ((dictGet d "fractions").getD "")
       let t := if t0.minutes > 0 then
           { t0 with seconds := t0.seconds + fracMulTrunc m 60 } else t0
       if t.hours > 0 then { t with minutes := t.minutes + fracMulTrunc m 60 }
       else if t.days > 0 then { t with hours := t.hours + fracMulTrunc m 24 }
       else if t.minutes = 0 then
         { t with minutes := t.minutes + fracMulTrunc m 60 }
       else t) := by
    unfold apply_fraction
    rw [if_pos hf]
  have hopid : ∀ u, apply_operator d u = u := by
    intro u; unfold apply_operator; rw [if_neg hop]
  have hbuild0 : build_timer_info d s p th =
      Except.ok { apply_operator d (apply_fraction d t0) with
        is_time :=
          is_time_calc (apply_operator d (apply_fraction d t0)) th } := by
    unfold build_timer_info
    rw [hnum]
    exact rfl
  have hbuild : build_timer_info d s p th =
      Except.ok { apply_fraction d t0 with
        is_time := is_time_calc (apply_fraction d t0) th } := by
    rw [hbuild0, hopid]
  refine ⟨_, hbuild, ?_, ?_, ?_, ?_⟩
  all_goals
    show _ = _
    simp only [hu, hfr, Option.getD_some]
    by_cases h1 : t0.minutes > 0 <;> by_cases h2 : t0.hours > 0 <;>
      by_cases h3 : t0.days > 0 <;> by_cases h4 : t0.minutes = 0 <;>
      simp [h1, h2, h3, h4]

/-- C3 witness: the amended theorem applied to the field map
`{minutes: "30", fractions: "quarter"}` — here only minutes are non-zero, so
exactly the seconds receive 0.25×60 = 15. -/
theorem va_c3_fraction_contributions_witness :
    (build_numeric [("minutes", some "30"), ("fractions", some "quarter")]
        (build_fixed [("minutes", some "30"), ("fractions", some "quarter")]
          none none) = Except.ok { minutes := 30 } ∧
      dictGet [("minutes", some "30"), ("fractions", some "quarter")]
        "fractions" = some "quarter") ∧
    (∃ t1, build_timer_info
        [("minutes", some "30"), ("fractions", some "quarter")]
        none none none = Except.ok t1 ∧
      t1.days = (0 : Int) ∧
      t1.seconds = 0 + (if (30 : Int) > 0 then
        fracMulTrunc (fraction_multiplier "quarter") 60 else 0) ∧
      t1.minutes = 30 + (if (0 : Int) > 0 ∨
          (¬ (0 : Int) > 0 ∧ ¬ (0 : Int) > 0 ∧ (30 : Int) = 0) then
        fracMulTrunc (fraction_multiplier "quarter") 60 else 0) ∧
      t1.hours = 0 + (if ¬ (0 : Int) > 0 ∧ (0 : Int) > 0 then
        fracMulTrunc (fraction_multiplier "quarter") 24 else 0)) :=
  ⟨⟨by rfl, by rfl⟩,
   va_c3_fraction_contributions _ none none none { minutes := 30 } "quarter"
     (by rfl) (by rfl) (Or.inr (Or.inl rfl)) (by simp [dictGet])⟩

/-! ## C8 -/

/-- C8: with operator "before"/"minus", `build_timer_info` inverts the lower
unit: positive minutes become 60 − minutes with hours decremented, else
positive hours become 24 − hours with days decremented; concretely the
"twenty to five" field map `{minutes: "20", operator: "before", hours: "5"}`
builds hours = 4, minutes = 40. -/
theorem va_c8_operator_inversion :
    (∀ (d : GroupDict) (s p th : Option String) (t0 : TimerInfo),
      build_numeric d (build_fixed d s p) = Except.ok t0 →
      (dictGet d "operator" = some "before" ∨
        dictGet d "operator" = some "minus") →
      ∃ t2, build_timer_info d s p th = Except.ok t2 ∧
        ((apply_fraction d t0).minutes > 0 →
          t2.minutes = 60 - (apply_fraction d t0).minutes ∧
          t2.hours = (apply_fraction d t0).hours - 1 ∧
          t2.days = (apply_fraction d t0).days ∧
          t2.seconds = (apply_fraction d t0).seconds) ∧
        (¬ (apply_fraction d t0).minutes > 0 →
          (apply_fraction d t0).hours > 0 →
          t2.hours = 24 - (apply_fraction d t0).hours ∧
          t2.days = (apply_fraction d t0).days - 1 ∧
          t2.minutes = (apply_fraction d t0).minutes ∧
          t2.seconds = (apply_fraction d t0).seconds)) ∧
    (∃ t, build_timer_info
        [("minutes", some "20"), ("operator", some "before"),
          ("hours", some "5")] none none none = Except.ok t ∧
      t.hours = 4 ∧ t.minutes = 40) := by
  constructor
  · intro d s p th t0 hnum hop
    have hbuild : build_timer_info d s p th =
        Except.ok { apply_operator d (apply_fraction d t0) with
          is_time :=
            is_time_calc (apply_operator d (apply_fraction d t0)) th } := by
      unfold build_timer_info
      rw [hnum]
      exact rfl
    refine ⟨_, hbuild, ?_, ?_⟩
    · intro hmin
      have hinv : apply_operator d (apply_fraction d t0) =
          { apply_fraction d t0 with
            minutes := 60 - (apply_fraction d t0).minutes,
            hours := (apply_fraction d t0).hours - 1 } := by
        unfold apply_operator
        rw [if_pos hop, if_pos hmin]
      simp [hinv]
    · intro hmin hhour
      have hinv : apply_operator d (apply_fraction d t0) =
          { apply_fraction d t0 with
            hours := 24 - (apply_fraction d t0).hours,
            days := (apply_fraction d t0).days - 1 } := by
        unfold apply_operator
        rw [if_pos hop, if_neg hmin, if_pos hhour]
      simp [hinv]
  · exact ⟨_, by rfl, by rfl, by rfl⟩

/-- C8 witness: the universal part applied to the "twenty to five" field
map itself (fraction-free, so `apply_fraction` is the identity there). -/
theorem va_c8_operator_inversion_witness :
    (build_numeric
        [("minutes", some "20"), ("operator", some "before"),
          ("hours", some "5")]
        (build_fixed
          [("minutes", some "20"), ("operator", some "before"),
            ("hours", some "5")] none none) =
      Except.ok { hours := 5, minutes := 20 } ∧
      dictGet
        [("minutes", some "20"), ("operator", some "before"),
          ("hours", some "5")] "operator" = some "before") ∧
    (∃ t2, build_timer_info
        [("minutes", some "20"), ("operator", some "before"),
          ("hours", some "5")] none none none = Except.ok t2 ∧
      ((apply_fraction
          [("minutes", some "20"), ("operator", some "before"),
            ("hours", some "5")] { hours := 5, minutes := 20 }).minutes > 0 →
        t2.minutes = 60 - 20 ∧ t2.hours = 5 - 1 ∧ t2.days = 0 ∧
          t2.seconds = 0) ∧
      (¬ (apply_fraction
          [("minutes", some "20"), ("operator", some "before"),
            ("hours", some "5")] { hours := 5, minutes := 20 }).minutes > 0 →
        (5 : Int) > 0 →
        t2.hours = 24 - 5 ∧ t2.days = 0 - 1 ∧ t2.minutes = 20 ∧
          t2.seconds = 0)) := by
  refine ⟨⟨by rfl, by rfl⟩, ?_⟩
  have h := va_c8_operator_inversion.1
    [("minutes", some "20"), ("operator", some "before"),
      ("hours", some "5")] none none none { hours := 5, minutes := 20 }
    (by rfl) (Or.inl (by rfl))
  exact h

/-! ## Shared resolver lemmas -/

/-- A successful `resolve_time` returns exactly the record it was given (the
mutation happened before, in `correct_pm`). -/
theorem resolve_time_state (t : TimerInfo) (now : Int) (t1 : TimerInfo)
    (e : Option Int) (h : resolve_time t now = Except.ok (some t1, e)) :
    t1 = t := by
  simp only [resolve_time] at h
  split at h
  · exact absurd h (by simp)
  · simp only [Except.ok.injEq, Prod.mk.injEq, Option.some.injEq] at h
    exact h.1.symm

/-! ## C4 -/

/-- Formalisation of claim C4 as stated: the resolver adds 12 to the hour if
and only if the hour is below 12 and the `meridiem` field is "pm". -/
def c4_claim : Prop :=
  ∀ (t t1 : TimerInfo) (now : Int) (e : Option Int),
    t.is_time = true →
    get_expiry_from_timerinfo (some t) now = Except.ok (some t1, e) →
    (t1.hours = t.hours + 12 ↔ (t.hours < 12 ∧ t.meridiem = "pm"))

/-- C4 counterexample: a `TimerInfo` with `meridiem = "pm"`, empty
`timeofday` and hour 4 resolves with its hour left at 4 — the resolver in
`timers.py` never reads the `meridiem` field (it tests
`timerinfo.timeofday == "pm"`), so the claimed "if" direction fails. -/
theorem va_c4_counterexample : ¬ c4_claim := by
  intro h
  have h4 := h { is_time := true, meridiem := "pm", hours := 4, minutes := 15 }
    { is_time := true, meridiem := "pm", hours := 4, minutes := 15 }
    (3 * 3600) (some 15300) rfl (by rfl)
  exact absurd (h4.mpr ⟨by norm_num, rfl⟩) (by decide)

/-- C4 (amended): the resolver adds 12 to the hour if and only if the hour
is below 12 and the `timeofday` field is "pm" (the pattern matcher captures
am/pm into `time_of_day`; the `meridiem` field is never consulted by
`timers.py`).  Concretely, the "quarter past 4 pm" field values
(timeofday = "pm", hours = 4, minutes = 15) resolve to 16:15. -/
theorem va_c4_pm_correction :
    (∀ (t t1 : TimerInfo) (now : Int) (e : Option Int),
      t.is_time = true →
      get_expiry_from_timerinfo (some t) now = Except.ok (some t1, e) →
      t1.hours =
        (if t.timeofday = "pm" ∧ t.hours < 12 then t.hours + 12
         else t.hours)) ∧
    get_expiry_from_timerinfo
        (some { is_time := true, timeofday := "pm", hours := 4,
                minutes := 15 }) (3 * 3600) =
      Except.ok (some { is_time := true,
                        timeofday := "pm",
                        hours := 16,
                        minutes := 15 }, some (16 * 3600 + 15 * 60)) := by
  constructor
  · intro t t1 now e ht h
    have hres : resolve_time (correct_pm t) now = Except.ok (some t1, e) := by
      simpa [get_expiry_from_timerinfo, ht] using h
    have ht1 : t1 = correct_pm t := resolve_time_state _ _ _ _ hres
    rw [ht1]
    unfold correct_pm
    split_ifs <;> simp
  · rfl

/-- C4 witness: the universal part applied at the "quarter past 4 pm"
record. -/
theorem va_c4_pm_correction_witness :
    (({ is_time := true, timeofday := "pm", hours := 4,
        minutes := 15 } : TimerInfo).is_time = true ∧
      get_expiry_from_timerinfo
          (some { is_time := true, timeofday := "pm", hours := 4,
                  minutes := 15 }) (3 * 3600) =
        Except.ok (some { is_time := true,
                          timeofday := "pm",
                          hours := 16,
                          minutes := 15 }, some (16 * 3600 + 15 * 60))) ∧
    ({ is_time := true, timeofday := "pm", hours := 16,
       minutes := 15 } : TimerInfo).hours =
      (if ({ is_time := true, timeofday := "pm", hours := 4,
             minutes := 15 } : TimerInfo).timeofday = "pm" ∧
          ({ is_time := true, timeofday := "pm", hours := 4,
             minutes := 15 } : TimerInfo).hours < 12 then
        ({ is_time := true, timeofday := "pm", hours := 4,
           minutes := 15 } : TimerInfo).hours + 12
       else ({ is_time := true, timeofday := "pm", hours := 4,
               minutes := 15 } : TimerInfo).hours) :=
  ⟨⟨rfl, by rfl⟩, va_c4_pm_correction.1 _ _ (3 * 3600) _ rfl (by rfl)⟩

/-! ## C9 -/

/-- Formalisation of claim C9 as stated: resolving leaves every field of the
input `TimerInfo` unchanged. -/
def c9_claim : Prop :=
  ∀ (t t1 : TimerInfo) (now : Int) (e : Option Int),
    get_expiry_from_timerinfo (some t) now = Except.ok (some t1, e) → t1 = t

/-- C9 counterexample: resolving `timeofday = "pm", hours = 4` mutates the
input's `hours` field to 16 (`timerinfo.hours += 12` in the source), so the
resolver is not pure over its input record. -/
theorem va_c9_counterexample : ¬ c9_claim := by
  intro h
  have := h { is_time := true, timeofday := "pm", hours := 4 }
    { is_time := true, timeofday := "pm", hours := 16 } (3 * 3600)
    (some 57600) (by rfl)
  exact absurd this (by decide)

/-- C9 (amended): the resolver leaves every field unchanged except `hours`,
which is increased by 12 exactly when `timeofday = "pm"` and the hour is
below 12; and for a non-negative input hour the mutation is idempotent, so
resolving the already-resolved record again (at the same `now`) returns the
same state and the same expiry. -/
theorem va_c9_resolver_frame :
    ∀ (t t1 : TimerInfo) (now : Int) (e : Option Int),
      get_expiry_from_timerinfo (some t) now = Except.ok (some t1, e) →
      (t1.days = t.days ∧ t1.minutes = t.minutes ∧ t1.seconds = t.seconds ∧
        t1.dayofweek = t.dayofweek ∧ t1.meridiem = t.meridiem ∧
        t1.timeofday = t.timeofday ∧ t1.special_hour = t.special_hour ∧
        t1.is_time = t.is_time ∧ t1.is_interval = t.is_interval ∧
        t1.sentence = t.sentence ∧ t1.pattern = t.pattern ∧
        (t1.hours = t.hours ∨
          (t1.hours = t.hours + 12 ∧ t.timeofday = "pm" ∧ t.hours < 12))) ∧
      (0 ≤ t.hours →
        get_expiry_from_timerinfo (some t1) now = Except.ok (some t1, e)) := by
  intro t t1 now e h
  by_cases ht : t.is_time = true
  · have hres : resolve_time (correct_pm t) now = Except.ok (some t1, e) := by
      simpa [get_expiry_from_timerinfo, ht] using h
    have ht1 : t1 = correct_pm t := resolve_time_state _ _ _ _ hres
    by_cases hc : t.timeofday = "pm" ∧ t.hours < 12
    · have hteq : t1 = { t with hours := t.hours + 12 } := by
        rw [ht1]; unfold correct_pm; rw [if_pos hc]
      constructor
      · rw [hteq]
        simp [hc.1, hc.2]
      · intro hh
        have hcp : correct_pm t1 = t1 := by
          rw [hteq]; unfold correct_pm
          rw [if_neg]
          intro hcon
          simp only at hcon
          omega
        have hti : t1.is_time = true := by rw [hteq]; simpa using ht
        have : get_expiry_from_timerinfo (some t1) now =
            resolve_time (correct_pm t1) now := by
          simp [get_expiry_from_timerinfo, hti]
        rw [ht1] at hres
        rw [this, hcp, ht1]
        exact hres
    · have hteq : t1 = t := by
        rw [ht1]; unfold correct_pm; rw [if_neg hc]
      constructor
      · rw [hteq]; simp
      · intro _
        have hcp : correct_pm t1 = t1 := by
          rw [hteq]; unfold correct_pm; rw [if_neg hc]
        have hti : t1.is_time = true := by rw [hteq]; exact ht
        have : get_expiry_from_timerinfo (some t1) now =
            resolve_time (correct_pm t1) now := by
          simp [get_expiry_from_timerinfo, hti]
        rw [ht1] at hres
        rw [this, hcp, ht1]
        exact hres
  · have hb : t.is_time = false := by simpa using ht
    have h' : (Except.ok (some t, some (now + t.days * 86400 +
          t.hours * 3600 + t.minutes * 60 + t.seconds)) :
        Except Unit (Option TimerInfo × Option Int)) =
        Except.ok (some t1, e) := by
      simpa [get_expiry_from_timerinfo, hb] using h
    simp only [Except.ok.injEq, Prod.mk.injEq, Option.some.injEq] at h'
    obtain ⟨h1, h2⟩ := h'
    subst h1
    constructor
    · simp
    · intro _
      simp [get_expiry_from_timerinfo, hb, ← h2]

/-- C9 witness: the amended theorem applied at the pm-corrected record
(hours 4 → 16), rechecking that a second resolution returns the same
result. -/
theorem va_c9_resolver_frame_witness :
    (get_expiry_from_timerinfo
        (some { is_time := true, timeofday := "pm", hours := 4 })
        (3 * 3600) =
      Except.ok (some { is_time := true, timeofday := "pm", hours := 16 },
        some 57600) ∧
      (0 : Int) ≤
        ({ is_time := true, timeofday := "pm", hours := 4 } : TimerInfo).hours) ∧
    (({ is_time := true, timeofday := "pm",
        hours := 16 } : TimerInfo).hours =
          ({ is_time := true, timeofday := "pm",
             hours := 4 } : TimerInfo).hours ∨
      (({ is_time := true, timeofday := "pm",
          hours := 16 } : TimerInfo).hours =
            ({ is_time := true, timeofday := "pm",
               hours := 4 } : TimerInfo).hours + 12 ∧
        ({ is_time := true, timeofday := "pm",
           hours := 4 } : TimerInfo).timeofday = "pm" ∧
        ({ is_time := true, timeofday := "pm",
           hours := 4 } : TimerInfo).hours < 12)) ∧
    get_expiry_from_timerinfo
        (some { is_time := true, timeofday := "pm", hours := 16 })
        (3 * 3600) =
      Except.ok (some { is_time := true, timeofday := "pm", hours := 16 },
        some 57600) :=
  ⟨⟨by rfl, by decide⟩,
   (va_c9_resolver_frame { is_time := true, timeofday := "pm", hours := 4 }
       { is_time := true, timeofday := "pm", hours := 16 } (3 * 3600)
       (some 57600) (by rfl)).1.2.2.2.2.2.2.2.2.2.2.2,
   (va_c9_resolver_frame { is_time := true, timeofday := "pm", hours := 4 }
       { is_time := true, timeofday := "pm", hours := 16 } (3 * 3600)
       (some 57600) (by rfl)).2 (by decide)⟩

/-! ## C5 -/

/-- The day-of-week-adjusted base time a successful `dow_step` produces for
a weekday/tomorrow token when the hour/minute guard degenerates (which
`resolve_time_dow_future` proves it always does for in-range fields). -/
def dayAdj (u : TimerInfo) (now : Int) : Int :=
  let base := startOfDayI now + u.hours * 3600 + u.minutes * 60 + u.seconds
  if u.dayofweek = "tomorrow" then base + 86400
  else
    base +
      (let da := (((WEEKDAYS.findIdx? (fun d => d = u.dayofweek)).getD 0 : Int)
          - weekdayI base + 7) % 7
       (if da = 0 then 7 else da) * 86400)

/-- With a day-of-week token present and in-range time fields, the
day-adjusted expiry is never before `now`, so the past-time rollover never
fires and `resolve_time` returns the day-adjusted base exactly. -/
theorem resolve_time_dow_future (u : TimerInfo) (now : Int)
    (_hnow : 0 ≤ now) (hh0 : 0 ≤ u.hours) (hh1 : u.hours ≤ 23)
    (hm0 : 0 ≤ u.minutes) (hm1 : u.minutes ≤ 59)
    (hs0 : 0 ≤ u.seconds) (hs1 : u.seconds ≤ 59)
    (hdw : u.dayofweek = "tomorrow" ∨ u.dayofweek ∈ WEEKDAYS) :
    resolve_time u now = Except.ok (some u, some (dayAdj u now)) ∧
      now ≤ dayAdj u now := by
  rcases hdw with hdw | hdw
  · have hnlt : ¬ (startOfDayI now + u.hours * 3600 + u.minutes * 60 +
        u.seconds + 86400 < now) := by
      unfold startOfDayI; omega
    have hle : now ≤ startOfDayI now + u.hours * 3600 + u.minutes * 60 +
        u.seconds + 86400 := by
      unfold startOfDayI; omega
    constructor
    · simp [resolve_time, dow_step, hdw, hnlt, dayAdj]
    · simpa [dayAdj, hdw] using hle
  · have hex : ∃ k : Nat, k ≤ 6 ∧
        WEEKDAYS.findIdx? (fun d => d = u.dayofweek) = some k ∧
        u.dayofweek ≠ "" ∧ u.dayofweek ≠ "tomorrow" := by
      have hmem : u.dayofweek = "monday" ∨ u.dayofweek = "tuesday" ∨
          u.dayofweek = "wednesday" ∨ u.dayofweek = "thursday" ∨
          u.dayofweek = "friday" ∨ u.dayofweek = "saturday" ∨
          u.dayofweek = "sunday" := by
        simpa [WEEKDAYS] using hdw
      rcases hmem with h | h | h | h | h | h | h
      · exact ⟨0, by omega, by rw [h]; rfl, by rw [h]; decide, by rw [h]; decide⟩
      · exact ⟨1, by omega, by rw [h]; rfl, by rw [h]; decide, by rw [h]; decide⟩
      · exact ⟨2, by omega, by rw [h]; rfl, by rw [h]; decide, by rw [h]; decide⟩
      · exact ⟨3, by omega, by rw [h]; rfl, by rw [h]; decide, by rw [h]; decide⟩
      · exact ⟨4, by omega, by rw [h]; rfl, by rw [h]; decide, by rw [h]; decide⟩
      · exact ⟨5, by omega, by rw [h]; rfl, by rw [h]; decide, by rw [h]; decide⟩
      · exact ⟨6, by omega, by rw [h]; rfl, by rw [h]; decide, by rw [h]; decide⟩
    obtain ⟨k, hk, hidx, hne, hnt⟩ := hex
    have hhour : hourI (startOfDayI now + u.hours * 3600 + u.minutes * 60 +
        u.seconds) = u.hours := by
      unfold hourI startOfDayI; omega
    have hminu : minuteI (startOfDayI now + u.hours * 3600 + u.minutes * 60 +
        u.seconds) = u.minutes := by
      unfold minuteI startOfDayI; omega
    have hda0 : 0 ≤ ((k : Int) - weekdayI (startOfDayI now +
        u.hours * 3600 + u.minutes * 60 + u.seconds) + 7) % 7 :=
      Int.emod_nonneg _ (by norm_num)
    have hda1 : ((k : Int) - weekdayI (startOfDayI now + u.hours * 3600 +
        u.minutes * 60 + u.seconds) + 7) % 7 < 7 :=
      Int.emod_lt_of_pos _ (by norm_num)
    have hX : (1 : Int) ≤ (if ((k : Int) - weekdayI (startOfDayI now +
        u.hours * 3600 + u.minutes * 60 + u.seconds) + 7) % 7 = 0 then 7
        else ((k : Int) - weekdayI (startOfDayI now + u.hours * 3600 +
          u.minutes * 60 + u.seconds) + 7) % 7) := by
      split_ifs with h0
      · norm_num
      · omega
    have hXmul : (86400 : Int) ≤ (if ((k : Int) - weekdayI (startOfDayI now +
        u.hours * 3600 + u.minutes * 60 + u.seconds) + 7) % 7 = 0 then 7
        else ((k : Int) - weekdayI (startOfDayI now + u.hours * 3600 +
          u.minutes * 60 + u.seconds) + 7) % 7) * 86400 := by
      have := mul_le_mul_of_nonneg_right hX (by norm_num : (0 : Int) ≤ 86400)
      simpa using this
    have hnlt : ¬ (startOfDayI now + u.hours * 3600 + u.minutes * 60 +
        u.seconds + (if ((k : Int) - weekdayI (startOfDayI now +
          u.hours * 3600 + u.minutes * 60 + u.seconds) + 7) % 7 = 0 then 7
          else ((k : Int) - weekdayI (startOfDayI now + u.hours * 3600 +
            u.minutes * 60 + u.seconds) + 7) % 7) * 86400 < now) := by
      unfold startOfDayI at hXmul ⊢
      omega
    have hle : now ≤ startOfDayI now + u.hours * 3600 + u.minutes * 60 +
        u.seconds + (if ((k : Int) - weekdayI (startOfDayI now +
          u.hours * 3600 + u.minutes * 60 + u.seconds) + 7) % 7 = 0 then 7
          else ((k : Int) - weekdayI (startOfDayI now + u.hours * 3600 +
            u.minutes * 60 + u.seconds) + 7) % 7) * 86400 := by
      unfold startOfDayI at hXmul ⊢
      omega
    have hstep : dow_step u (startOfDayI now + u.hours * 3600 +
        u.minutes * 60 + u.seconds) =
        Except.ok (startOfDayI now + u.hours * 3600 + u.minutes * 60 +
          u.seconds + (if ((k : Int) - weekdayI (startOfDayI now +
            u.hours * 3600 + u.minutes * 60 + u.seconds) + 7) % 7 = 0 then 7
            else ((k : Int) - weekdayI (startOfDayI now + u.hours * 3600 +
              u.minutes * 60 + u.seconds) + 7) % 7) * 86400) := by
      unfold dow_step
      rw [if_pos hne, if_neg hnt]
      simp only [hidx]
      rw [hhour, hminu]
      split_ifs with h1 h2 h2 <;>
        first
          | rfl
          | (exfalso; omega)
    have hadj : dayAdj u now = startOfDayI now + u.hours * 3600 +
        u.minutes * 60 + u.seconds + (if ((k : Int) - weekdayI (startOfDayI
          now + u.hours * 3600 + u.minutes * 60 + u.seconds) + 7) % 7 = 0
          then 7 else ((k : Int) - weekdayI (startOfDayI now +
            u.hours * 3600 + u.minutes * 60 + u.seconds) + 7) % 7) *
          86400 := by
      unfold dayAdj
      rw [if_neg hnt]
      simp only [hidx, Option.getD_some]
    constructor
    · simp only [resolve_time]
      simp only [hstep]
      rw [if_neg hnlt, hadj]
    · rw [hadj]
      exact hle

/-- Formalisation of claim C5 as stated: with `is_time`, no day-of-week, and
the (pm-corrected) base earlier than `now`, the resolver rolls forward 1 day
when an explicit meridiem or time-of-day marker was given and 12 hours
otherwise. -/
def c5_claim : Prop :=
  ∀ (t t1 : TimerInfo) (now e : Int),
    t.is_time = true → t.dayofweek = "" →
    get_expiry_from_timerinfo (some t) now = Except.ok (some t1, some e) →
    startOfDayI now + (correct_pm t).hours * 3600 +
        (correct_pm t).minutes * 60 + (correct_pm t).seconds < now →
    e = startOfDayI now + (correct_pm t).hours * 3600 +
        (correct_pm t).minutes * 60 + (correct_pm t).seconds +
      (if t.meridiem ≠ "" ∨ t.timeofday ≠ "" then 86400 else 43200)

/-- C5 counterexample: `meridiem = "pm"`, empty `timeofday`, hour 2 at
now = 14:00 — the claim demands a 1-day roll (a meridiem marker was given),
but the code tests only the `timeofday` field and rolls 12 hours, landing
at 14:00. -/
theorem va_c5_counterexample : ¬ c5_claim := by
  intro h
  have := h { is_time := true, meridiem := "pm", hours := 2 }
    { is_time := true, meridiem := "pm", hours := 2 } (14 * 3600) (14 * 3600)
    rfl rfl (by rfl) (by decide)
  exact absurd this (by decide)

/-- C5 (amended): (1) with no day-of-week and the base in the past, the
resolver rolls forward 1 day exactly when the `timeofday` field is non-empty
and 12 hours otherwise — the `meridiem` field plays no part; (2) when a
day-of-week token (a weekday name or "tomorrow") was given and the time
fields are in range, the day-adjusted expiry is never before `now` (the
weekday adjustment is always at least one day, see `dayAdj`), so the
past-time rollover — which the code would still apply — has no effect. -/
theorem va_c5_past_rollover :
    (∀ (t : TimerInfo) (now : Int),
      t.is_time = true → t.dayofweek = "" →
      startOfDayI now + (correct_pm t).hours * 3600 +
          (correct_pm t).minutes * 60 + (correct_pm t).seconds < now →
      get_expiry_from_timerinfo (some t) now =
        Except.ok (some (correct_pm t),
          some (startOfDayI now + (correct_pm t).hours * 3600 +
            (correct_pm t).minutes * 60 + (correct_pm t).seconds +
            (if t.timeofday ≠ "" then 86400 else 43200)))) ∧
    (∀ (t : TimerInfo) (now : Int),
      t.is_time = true →
      (t.dayofweek = "tomorrow" ∨ t.dayofweek ∈ WEEKDAYS) →
      0 ≤ now → 0 ≤ t.hours → t.hours ≤ 23 → 0 ≤ t.minutes →
      t.minutes ≤ 59 → 0 ≤ t.seconds → t.seconds ≤ 59 →
      get_expiry_from_timerinfo (some t) now =
        Except.ok (some (correct_pm t), some (dayAdj (correct_pm t) now)) ∧
      now ≤ dayAdj (correct_pm t) now) := by
  constructor
  · intro t now ht hdw hlt
    have hres : get_expiry_from_timerinfo (some t) now =
        resolve_time (correct_pm t) now := by
      simp [get_expiry_from_timerinfo, ht]
    have hud : (correct_pm t).dayofweek = "" := by
      unfold correct_pm; split_ifs <;> simpa using hdw
    have hutod : (correct_pm t).timeofday = t.timeofday := by
      unfold correct_pm; split_ifs <;> rfl
    have hstep : dow_step (correct_pm t) (startOfDayI now +
        (correct_pm t).hours * 3600 + (correct_pm t).minutes * 60 +
        (correct_pm t).seconds) = Except.ok (startOfDayI now +
        (correct_pm t).hours * 3600 + (correct_pm t).minutes * 60 +
        (correct_pm t).seconds) := by
      unfold dow_step
      rw [if_neg]
      simp [hud]
    rw [hres]
    simp only [resolve_time]
    simp only [hstep]
    rw [if_pos hlt, hutod]
    by_cases hc : t.timeofday = "" <;> simp [hc]
  · intro t now ht hdw hnow hh0 hh1 hm0 hm1 hs0 hs1
    have hcd : (correct_pm t).dayofweek = t.dayofweek := by
      unfold correct_pm; split_ifs <;> rfl
    have hcm : (correct_pm t).minutes = t.minutes := by
      unfold correct_pm; split_ifs <;> rfl
    have hcs : (correct_pm t).seconds = t.seconds := by
      unfold correct_pm; split_ifs <;> rfl
    have hch0 : 0 ≤ (correct_pm t).hours := by
      unfold correct_pm; split_ifs
      · show 0 ≤ t.hours + 12; omega
      · exact hh0
    have hch1 : (correct_pm t).hours ≤ 23 := by
      unfold correct_pm; split_ifs with hc
      · show t.hours + 12 ≤ 23
        have := hc.2
        omega
      · exact hh1
    have hmain := resolve_time_dow_future (correct_pm t) now hnow hch0 hch1
      (by rw [hcm]; exact hm0) (by rw [hcm]; exact hm1)
      (by rw [hcs]; exact hs0) (by rw [hcs]; exact hs1)
      (by rw [hcd]; exact hdw)
    have hres : get_expiry_from_timerinfo (some t) now =
        resolve_time (correct_pm t) now := by
      simp [get_expiry_from_timerinfo, ht]
    exact ⟨by rw [hres]; exact hmain.1, hmain.2⟩

/-- The "2:00 with nothing else" record of the C5 witness. -/
def tTwo : TimerInfo := { is_time := true, hours := 2 }

/-- The "monday 9:00" record of the C5 witness. -/
def tMonday9 : TimerInfo :=
  { is_time := true, dayofweek := "monday", hours := 9 }

/-- C5 witness: part 1 at `hours = 2`, `now` = 14:00 (rolls 12 hours to
14:00); part 2 at "monday 9:00" from Wednesday 10:00 (day-adjusted to next
Monday 9:00 = 637200, which is not before `now`, so no rollover). -/
theorem va_c5_past_rollover_witness :
    (tTwo.is_time = true ∧ tTwo.dayofweek = "" ∧
      startOfDayI (14 * 3600) + (correct_pm tTwo).hours * 3600 +
          (correct_pm tTwo).minutes * 60 + (correct_pm tTwo).seconds <
        14 * 3600 ∧
      get_expiry_from_timerinfo (some tTwo) (14 * 3600) =
        Except.ok (some (correct_pm tTwo),
          some (startOfDayI (14 * 3600) + (correct_pm tTwo).hours * 3600 +
            (correct_pm tTwo).minutes * 60 + (correct_pm tTwo).seconds +
            (if tTwo.timeofday ≠ "" then 86400 else 43200)))) ∧
    (get_expiry_from_timerinfo (some tMonday9) nowWednesday10 =
      Except.ok (some (correct_pm tMonday9),
        some (dayAdj (correct_pm tMonday9) nowWednesday10)) ∧
      nowWednesday10 ≤ dayAdj (correct_pm tMonday9) nowWednesday10 ∧
      dayAdj (correct_pm tMonday9) nowWednesday10 =
        7 * 86400 + 9 * 3600) :=
  ⟨⟨rfl, rfl, by decide,
    va_c5_past_rollover.1 tTwo (14 * 3600) rfl rfl (by decide)⟩,
   (va_c5_past_rollover.2 tMonday9 nowWednesday10 rfl (Or.inr (by decide))
       (by decide) (by decide) (by decide) (by decide) (by decide)
       (by decide) (by decide)).1,
   (va_c5_past_rollover.2 tMonday9 nowWednesday10 rfl (Or.inr (by decide))
       (by decide) (by decide) (by decide) (by decide) (by decide)
       (by decide) (by decide)).2,
   by rfl⟩

/-! ## C7 -/

/-- On a working string that is a fixed point of the per-iteration cleanup,
the standard-time loop returns the first fully matching pattern's build (and
falls through otherwise). -/
theorem std_loop_clean_fixed (pats : List String) (s : List Char)
    (orig : String) (hs : clean_std s = s) :
    std_loop pats s orig =
      (match pats.findSome? (fun p => (run_regex p s).map fun m => (p, m)) with
       | some (p, m) =>
         Sum.inl (build_timer_info m (some orig) (some p) (some "time"))
       | none => Sum.inr s) := by
  induction pats with
  | nil => rfl
  | cons p rest ih =>
    show (let s' := clean_std s
          match run_regex p s' with
          | some m =>
            Sum.inl (build_timer_info m (some orig) (some p) (some "time"))
          | none => std_loop rest s' orig) = _
    rw [hs]
    cases hrr : run_regex p s with
    | some m => simp [List.findSome?_cons, hrr]
    | none => simp only [List.findSome?_cons, hrr, Option.map_none', ih]

/-- C7: the matching phase evaluates templates in fixed priority order —
standard-time patterns first, then the language-pack structures, then the
generic duration pattern — and the first full match decides, whatever the
pack structures contain.  "2h" matches both a standard-time template and the
duration template, and the time interpretation wins (`is_time = true`,
matched pattern `{std_time}`); a sentence matching nothing yields the null
result. -/
theorem va_c7_priority :
    (∀ (structures : List (String × List String)) (s : List Char)
      (orig : String) (th : Option String) (p : String) (m : GroupDict),
      clean_std s = s →
      firstStdMatch s = some (p, m) →
      match_phase structures s orig th =
        (build_timer_info m (some orig) (some p) (some "time")).map some) ∧
    (run_regex "{std_time}" "2h".data).isSome = true ∧
    (run_regex make_duration_pattern "2h".data).isSome = true ∧
    match_phase lpDemo.structures "2h".data "2h" none =
      Except.ok (some { hours := 2, is_time := true, sentence := some "2h",
                        pattern := some "{std_time}" }) ∧
    match_phase lpDemo.structures "xyz qwerty".data "xyz qwerty" none =
      Except.ok none := by
  refine ⟨?_, by rfl, by rfl, by rfl, by rfl⟩
  intro structures s orig th p m hs hfirst
  unfold match_phase
  rw [std_loop_clean_fixed _ _ _ hs]
  unfold firstStdMatch at hfirst
  rw [hfirst]

/-- C7 witness: the universal part applied to "12:30", whose first matching
standard-time pattern is `{std_time}`. -/
theorem va_c7_priority_witness :
    (clean_std "12:30".data = "12:30".data ∧
      firstStdMatch "12:30".data =
        some ("{std_time}", [("hours", some "12"), ("minutes", some "30")])) ∧
    match_phase lpDemo.structures "12:30".data "12:30" none =
      (build_timer_info [("hours", some "12"), ("minutes", some "30")]
        (some "12:30") (some "{std_time}") (some "time")).map some :=
  ⟨⟨by rfl, by rfl⟩,
   va_c7_priority.1 lpDemo.structures "12:30".data "12:30" none "{std_time}"
     [("hours", some "12"), ("minutes", some "30")] (by rfl) (by rfl)⟩

end ViewAssist
